import Mathlib

/-!
Shallow embedding of the `tensorrt-rs` C++ adapter layer
(`tensorrt-rs-sys/cxx/src/runtime.cpp`, `tensorrt-rs-sys/cxx/src/logger.cpp`
and the inline methods of `cxx/include/runtime.h`), together with proofs of
the behavioural properties of its public surface.

The adapter is a forwarding shim over the native TensorRT objects
(`IRuntime`, `ICudaEngine`, `IExecutionContext`) and the spdlog backend.
The native objects are embedded as explicit state records; where a property
depends on behaviour of the native library itself (which is not part of this
repository), the corresponding definition is modelled from the specification
and its doc comment says so.  Machine integers (`int32_t` extents, `size_t`
addresses/streams) are embedded as `Int`/`Nat`: the adapter only copies them,
so no overflow can occur in any of the modelled operations.
-/

namespace TrtRs

/-- Native `nvinfer1::Dims`: a fixed-capacity array of `8` signed 32-bit
extents (`d`) together with a declared rank `nbDims`.  A negative `nbDims`
is the native error sentinel. -/
structure Dims where
  nbDims : Int
  d : Fin 8 → Int

/-- The unmarshalling loop shared by `CudaEngine::get_tensor_shape`,
`ExecutionContext::get_tensor_shape` and `ExecutionContext::get_tensor_strides`:
`for (int32_t i = 0; i < dims.nbDims; ++i) vec.push_back(dims.d[i]);`.
A non-positive `nbDims` runs the loop zero times.  The `else` arm is
unreachable for any `Dims` satisfying the native invariant `nbDims ≤ 8`. -/
def marshalDims (dims : Dims) : List Int :=
  (List.range dims.nbDims.toNat).map fun i => if h : i < 8 then dims.d ⟨i, h⟩ else 0

/-- The copy loop of `ExecutionContext::set_input_shape`:
`for (int32_t i = 0; i < nb_dims; ++i) dims_trt.d[i] = dims[i];`.
The C++ performs no length check on the incoming slice; writing slot
`i ≥ 8` is an out-of-bounds store on the stack-allocated `Dims`, which the
embedding makes explicit by returning `none` at the first such write.
`acc` starts as the (arbitrary) initial content of the uninitialised
`Dims::d` array. -/
def copyExtents : List Int → Nat → (Fin 8 → Int) → Option (Fin 8 → Int)
  | [], _, acc => some acc
  | x :: xs, i, acc =>
    if h : i < 8 then copyExtents xs (i + 1) (Function.update acc ⟨i, h⟩ x) else none

/-- Marshal a host dims slice into a native `Dims` exactly as
`ExecutionContext::set_input_shape` does: set `dims_trt.nbDims = nb_dims`
and run the copy loop over an uninitialised 8-slot array `g`. -/
def buildDims (xs : List Int) (g : Fin 8 → Int) : Option Dims :=
  (copyExtents xs 0 g).map fun f => { nbDims := (xs.length : Int), d := f }

/-- Modelled from the spec: the observable state of a native
`IExecutionContext` (the vendor object behind the adapter; the native
library is not part of this repository).  It carries the per-input shape
table, the per-tensor address table, the stride results, the engine-profile
acceptance predicates for shapes and addresses, the dynamic input names and
the I/O names of the bound engine, the native-defined shapes reported for
names with no recorded entry, and the native submission outcome per stream. -/
structure NativeContext where
  shapes : String → Option Dims
  addresses : String → Nat
  strideTable : String → Dims
  fallbackShape : String → Dims
  acceptsShape : String → Dims → Bool
  acceptsAddress : String → Nat → Bool
  inputNames : List String
  ioNames : List String
  submitOk : Nat → Bool

/-- Modelled from the spec: native `setInputShape` accepts or rejects the
shape against the engine's declared profile and, on acceptance, records it
in this context's per-input shape table. -/
def NativeContext.setInputShape (ctx : NativeContext) (name : String) (dt : Dims) :
    Bool × NativeContext :=
  if ctx.acceptsShape name dt then
    (true, { ctx with shapes := Function.update ctx.shapes name (some dt) })
  else
    (false, ctx)

/-- Modelled from the spec: native `getTensorShape` on a context returns the
recorded input shape once one has been set, and a native-defined
placeholder/derived shape otherwise. -/
def NativeContext.getTensorShape (ctx : NativeContext) (name : String) : Dims :=
  (ctx.shapes name).getD (ctx.fallbackShape name)

/-- Modelled from the spec: native `allInputDimensionsSpecified` holds
exactly when every (dynamic) input tensor has a resolved shape. -/
def NativeContext.allInputDimensionsSpecified (ctx : NativeContext) : Bool :=
  ctx.inputNames.all fun n => (ctx.shapes n).isSome

/-- Modelled from the spec: native `setTensorAddress` validates the
name/address pair and, on acceptance, updates this context's own address
table only. -/
def NativeContext.setTensorAddress (ctx : NativeContext) (name : String) (addr : Nat) :
    Bool × NativeContext :=
  if ctx.acceptsAddress name addr then
    (true, { ctx with addresses := Function.update ctx.addresses name addr })
  else
    (false, ctx)

/-- Native `getTensorAddress`: look up this context's address table. -/
def NativeContext.getTensorAddress (ctx : NativeContext) (name : String) : Nat :=
  ctx.addresses name

/-- Modelled from the spec: native `enqueueV3` submits successfully only if
every input tensor has a resolved shape and every I/O tensor has a non-null
address bound; under those preconditions the native submission outcome for
the given stream decides the returned boolean. -/
def NativeContext.enqueueV3 (ctx : NativeContext) (stream : Nat) : Bool :=
  ctx.allInputDimensionsSpecified
    && (ctx.ioNames.all fun n => ctx.addresses n != 0)
    && ctx.submitOk stream

/-- The native `ICudaEngine` behind the adapter, abstracted by what the
adapter observes of it: the `Dims` it reports per tensor name and the
results of its two execution-context constructors (`none` embeds a native
null return). -/
structure NativeEngine where
  tensorShape : String → Dims
  createContextResult : Option NativeContext
  createContextNoMemResult : Option NativeContext

/-- The native `IRuntime`, abstracted by its deserializer: for each byte
buffer, either a native engine or `none` (a native null return, e.g. on
malformed or incompatible serialized data). -/
structure NativeRuntime where
  deserializeCudaEngine : List Nat → Option NativeEngine

/-- `trt_rs::runtime::Runtime`: exclusively owns one native runtime. -/
structure Runtime where
  native : NativeRuntime

/-- `trt_rs::runtime::CudaEngine`: exclusively owns one native engine. -/
structure CudaEngine where
  native : NativeEngine

/-- `trt_rs::runtime::ExecutionContext`: exclusively owns one native
execution context. -/
structure ExecutionContext where
  native : NativeContext

/-- `create_runtime` (runtime.cpp): call `nvinfer1::createInferRuntime`
(abstracted by its result `nativeResult`), return null on null and wrap the
returned object otherwise. -/
def create_runtime (nativeResult : Option NativeRuntime) : Option Runtime :=
  match nativeResult with
  | none => none
  | some r => some ⟨r⟩

/-- `Runtime::deserialize` (runtime.cpp): forward the whole byte buffer
(`data.data()`, `data.size()`) to the native deserializer, return null on
null and wrap the returned engine otherwise. -/
def Runtime.deserialize (rt : Runtime) (data : List Nat) : Option CudaEngine :=
  match rt.native.deserializeCudaEngine data with
  | none => none
  | some e => some ⟨e⟩

/-- `CudaEngine::get_tensor_shape` (runtime.cpp): marshal the native
`getTensorShape` result into an owned vector. -/
def CudaEngine.get_tensor_shape (e : CudaEngine) (name : String) : List Int :=
  marshalDims (e.native.tensorShape name)

/-- `CudaEngine::create_execution_context` (runtime.cpp): null-check and
wrap the native `createExecutionContext` result. -/
def CudaEngine.create_execution_context (e : CudaEngine) : Option ExecutionContext :=
  match e.native.createContextResult with
  | none => none
  | some c => some ⟨c⟩

/-- `CudaEngine::create_execution_context_without_device_memory`
(runtime.cpp): null-check and wrap the native
`createExecutionContextWithoutDeviceMemory` result. -/
def CudaEngine.create_execution_context_without_device_memory (e : CudaEngine) :
    Option ExecutionContext :=
  match e.native.createContextNoMemResult with
  | none => none
  | some c => some ⟨c⟩

/-- `ExecutionContext::get_tensor_strides` (runtime.cpp): marshal the native
`getTensorStrides` result into an owned vector. -/
def ExecutionContext.get_tensor_strides (ctx : ExecutionContext) (name : String) : List Int :=
  marshalDims (ctx.native.strideTable name)

/-- `ExecutionContext::set_input_shape` (runtime.cpp): marshal the incoming
slice into a native `Dims` (`none` embeds the unchecked copy going out of
bounds for slices longer than 8) and forward to native `setInputShape`;
state passing stands in for mutation of the owned native context. -/
def ExecutionContext.set_input_shape (ctx : ExecutionContext) (name : String)
    (dims : List Int) (g : Fin 8 → Int) : Option (Bool × ExecutionContext) :=
  (buildDims dims g).map fun dt =>
    ((ctx.native.setInputShape name dt).1, ⟨(ctx.native.setInputShape name dt).2⟩)

/-- `ExecutionContext::get_tensor_shape` (runtime.cpp): marshal the native
`getTensorShape` result into an owned vector. -/
def ExecutionContext.get_tensor_shape (ctx : ExecutionContext) (name : String) : List Int :=
  marshalDims (ctx.native.getTensorShape name)

/-- `ExecutionContext::all_input_dimensions_specified` (runtime.h): forward
to native `allInputDimensionsSpecified`. -/
def ExecutionContext.all_input_dimensions_specified (ctx : ExecutionContext) : Bool :=
  ctx.native.allInputDimensionsSpecified

/-- `ExecutionContext::enqueue_v3` (runtime.cpp): forward the stream handle
to native `enqueueV3` and surface its boolean result unchanged. -/
def ExecutionContext.enqueue_v3 (ctx : ExecutionContext) (stream : Nat) : Bool :=
  ctx.native.enqueueV3 stream

/-- `ExecutionContext::set_tensor_address` (runtime.h): forward to native
`setTensorAddress`; state passing stands in for mutation. -/
def ExecutionContext.set_tensor_address (ctx : ExecutionContext) (name : String)
    (addr : Nat) : Bool × ExecutionContext :=
  ((ctx.native.setTensorAddress name addr).1, ⟨(ctx.native.setTensorAddress name addr).2⟩)

/-- `ExecutionContext::get_tensor_address` (runtime.h): forward to native
`getTensorAddress`. -/
def ExecutionContext.get_tensor_address (ctx : ExecutionContext) (name : String) : Nat :=
  ctx.native.getTensorAddress name

/-- A family of execution contexts indexed by creation order (e.g. several
contexts created from one engine), with `set_tensor_address` applied to
member `i` only — each adapter context owns a distinct native context. -/
def setTensorAddressAt (w : Nat → ExecutionContext) (i : Nat) (name : String)
    (addr : Nat) : Nat → ExecutionContext :=
  Function.update w i ((w i).set_tensor_address name addr).2

/-- spdlog backend level `debug`, numbered by spdlog's ordering
(trace 0 < debug 1 < info 2 < warn 3 < err 4 < critical 5). -/
def spdDebug : Nat := 1

/-- spdlog backend level `info`. -/
def spdInfo : Nat := 2

/-- spdlog backend level `warn`. -/
def spdWarn : Nat := 3

/-- spdlog backend level `err`. -/
def spdErr : Nat := 4

/-- spdlog backend level `critical`. -/
def spdCritical : Nat := 5

/-- The severity switch of `Logger::log` (logger.cpp): TensorRT severities
`kINTERNAL_ERROR`(0), `kERROR`(1), `kWARNING`(2), `kINFO`(3), `kVERBOSE`(4)
route to spdlog `critical`/`error`/`warn`/`info`/`debug`; the `default:`
arm (reached through the `int32_t` overload's cast for any other value)
also routes to `debug`. -/
def severityToSpd (sev : Int) : Nat :=
  if sev = 0 then spdCritical
  else if sev = 1 then spdErr
  else if sev = 2 then spdWarn
  else if sev = 3 then spdInfo
  else spdDebug

/-- The spdlog global registry, abstracted by its minimum-severity filter. -/
structure SpdState where
  level : Nat

/-- Modelled from the spec: the structured logging backend (spdlog, not part
of this repository) keeps a global minimum-severity filter, and a message
logged at backend level `lvl` reaches the output sink iff `lvl` passes the
filter.  The result is the list of `(level, text)` events reaching the sink. -/
def SpdState.emit (st : SpdState) (lvl : Nat) (msg : String) : List (Nat × String) :=
  if st.level ≤ lvl then [(lvl, msg)] else []

/-- `Logger::log(int32_t, rust::Str)` → `Logger::log(Severity, const char*)`
(logger.cpp): route the unchanged message text to the backend level chosen
by the severity switch. -/
def Logger.log (st : SpdState) (sev : Int) (msg : String) : List (Nat × String) :=
  st.emit (severityToSpd sev) msg

/-- `Logger::set_level` (logger.cpp): switch on the cast severity; the five
in-range values set the spdlog global level and the `default:` arm does
nothing. -/
def Logger.set_level (sev : Int) (st : SpdState) : SpdState :=
  if sev = 0 then { st with level := spdCritical }
  else if sev = 1 then { st with level := spdErr }
  else if sev = 2 then { st with level := spdWarn }
  else if sev = 3 then { st with level := spdInfo }
  else if sev = 4 then { st with level := spdDebug }
  else st

/-- All-zero initial content for an uninitialised native `Dims::d` array. -/
def zeroSlots : Fin 8 → Int := fun _ => 0

/-- A concrete rank-2 native `Dims` with extents `[1, 2]`. -/
def dimsA : Dims := { nbDims := 2, d := fun i => (i.1 : Int) + 1 }

/-- A concrete native `Dims` carrying the negative-rank error sentinel. -/
def negDims : Dims := { nbDims := -1, d := zeroSlots }

/-- A concrete native context: one dynamic input `"input"`, no shape set
yet, permissive acceptance predicates. -/
def nc0 : NativeContext where
  shapes := fun _ => none
  addresses := fun _ => 0
  strideTable := fun _ => dimsA
  fallbackShape := fun _ => dimsA
  acceptsShape := fun _ _ => true
  acceptsAddress := fun _ _ => true
  inputNames := ["input"]
  ioNames := ["input", "output"]
  submitOk := fun _ => true

/-- A concrete adapter context wrapping `nc0`. -/
def ec0 : ExecutionContext := ⟨nc0⟩

/-- The adapter context obtained from `ec0` by setting the shape of
`"input"` to `[2, 3]`. -/
def ec1 : ExecutionContext :=
  ((ec0.set_input_shape "input" [2, 3] zeroSlots).getD (true, ec0)).2

/-- A concrete native context whose shape/stride reads all report the
negative-rank sentinel. -/
def nc2 : NativeContext where
  shapes := fun _ => none
  addresses := fun _ => 0
  strideTable := fun _ => negDims
  fallbackShape := fun _ => negDims
  acceptsShape := fun _ _ => true
  acceptsAddress := fun _ _ => true
  inputNames := []
  ioNames := []
  submitOk := fun _ => true

/-- A concrete adapter context wrapping `nc2`. -/
def ec2 : ExecutionContext := ⟨nc2⟩

/-- A concrete native engine reporting `dimsA` for every tensor name, whose
first constructor succeeds and whose second returns null. -/
def ne0 : NativeEngine where
  tensorShape := fun _ => dimsA
  createContextResult := some nc0
  createContextNoMemResult := none

/-- A concrete adapter engine wrapping `ne0`. -/
def eng0 : CudaEngine := ⟨ne0⟩

/-- A concrete native engine reporting the negative-rank sentinel for every
tensor name. -/
def ne2 : NativeEngine where
  tensorShape := fun _ => negDims
  createContextResult := none
  createContextNoMemResult := some nc2

/-- A concrete adapter engine wrapping `ne2`. -/
def eng2 : CudaEngine := ⟨ne2⟩

/-- A concrete native runtime whose deserializer always succeeds with `ne0`. -/
def nr0 : NativeRuntime where
  deserializeCudaEngine := fun _ => some ne0

/-- The faithfulness relation between a native `Dims` and a marshalled
vector: the vector's length equals the declared rank and each element equals
the corresponding native extent, order-preserving. -/
def marshalFaithful (dt : Dims) (out : List Int) : Prop :=
  (out.length : Int) = dt.nbDims ∧
    ∀ (j : Nat) (h8 : j < 8), j < out.length → out.getD j 0 = dt.d ⟨j, h8⟩

/-! ### Lemmas about the copy and marshalling loops -/

theorem copyExtents_isSome_of_le (xs : List Int) :
    ∀ (k : Nat) (g : Fin 8 → Int), k + xs.length ≤ 8 → (copyExtents xs k g).isSome := by
  induction xs with
  | nil =>
      intro k g _
      simp [copyExtents]
  | cons x xs ih =>
      intro k g h
      have hk : k < 8 := by
        simp only [List.length_cons] at h
        omega
      rw [copyExtents, dif_pos hk]
      exact ih (k + 1) _ (by simp only [List.length_cons] at h; omega)

theorem copyExtents_length_le (xs : List Int) :
    ∀ (k : Nat) (g f : Fin 8 → Int), copyExtents xs k g = some f →
      xs = [] ∨ k + xs.length ≤ 8 := by
  induction xs with
  | nil =>
      intro k g f _
      exact Or.inl rfl
  | cons x xs ih =>
      intro k g f h
      by_cases hk : k < 8
      · rw [copyExtents, dif_pos hk] at h
        refine Or.inr ?_
        rcases ih (k + 1) _ f h with h0 | h0
        · subst h0
          simp only [List.length_cons, List.length_nil]
          omega
        · simp only [List.length_cons]
          omega
      · rw [copyExtents, dif_neg hk] at h
        exact absurd h (by simp)

theorem copyExtents_lower (xs : List Int) :
    ∀ (k : Nat) (g f : Fin 8 → Int), copyExtents xs k g = some f →
      ∀ i : Fin 8, i.1 < k → f i = g i := by
  induction xs with
  | nil =>
      intro k g f h i _
      rw [copyExtents] at h
      rw [← Option.some.inj h]
  | cons x xs ih =>
      intro k g f h i hi
      by_cases hk : k < 8
      · rw [copyExtents, dif_pos hk] at h
        have h1 := ih (k + 1) _ f h i (by omega)
        rw [h1, Function.update_noteq (Fin.ne_of_val_ne (show i.1 ≠ k by omega))]
      · rw [copyExtents, dif_neg hk] at h
        exact absurd h (by simp)

theorem copyExtents_get (xs : List Int) :
    ∀ (k : Nat) (g f : Fin 8 → Int), copyExtents xs k g = some f →
      ∀ (j : Nat) (hj : j < xs.length) (hk : k + j < 8),
        f ⟨k + j, hk⟩ = xs.get ⟨j, hj⟩ := by
  induction xs with
  | nil =>
      intro k g f _ j hj
      exact absurd hj (by simp)
  | cons x xs ih =>
      intro k g f h j hj hk
      have hk8 : k < 8 := by omega
      rw [copyExtents, dif_pos hk8] at h
      match j with
      | 0 =>
          have h1 := copyExtents_lower xs (k + 1) _ f h ⟨k + 0, hk⟩ (show k + 0 < k + 1 by omega)
          rw [h1]
          show Function.update g ⟨k, hk8⟩ x ⟨k + 0, hk⟩ = x
          rw [Function.update_apply, if_pos (by apply Fin.ext; simp)]
      | j' + 1 =>
          have hj' : j' < xs.length := by
            simp only [List.length_cons] at hj
            omega
          have hk2 : (k + 1) + j' < 8 := by omega
          have h2 := ih (k + 1) _ f h j' hj' hk2
          have e : (⟨k + (j' + 1), hk⟩ : Fin 8) = ⟨(k + 1) + j', hk2⟩ := by
            apply Fin.ext
            simp only []
            omega
          rw [e, h2]
          rfl

theorem buildDims_isSome (xs : List Int) (g : Fin 8 → Int) :
    (buildDims xs g).isSome ↔ xs.length ≤ 8 := by
  unfold buildDims
  rw [Option.isSome_map']
  constructor
  · intro h
    obtain ⟨f, hf⟩ := Option.isSome_iff_exists.mp h
    rcases copyExtents_length_le xs 0 g f hf with h0 | h0
    · subst h0
      simp
    · omega
  · intro h
    exact copyExtents_isSome_of_le xs 0 g (by omega)

theorem buildDims_spec (xs : List Int) (g : Fin 8 → Int) (dt : Dims)
    (h : buildDims xs g = some dt) :
    dt.nbDims = (xs.length : Int) ∧
      ∀ (j : Nat) (hj : j < xs.length) (h8 : j < 8), dt.d ⟨j, h8⟩ = xs.get ⟨j, hj⟩ := by
  unfold buildDims at h
  obtain ⟨f, hf, hdt⟩ := Option.map_eq_some'.mp h
  constructor
  · rw [← hdt]
  · intro j hj h8
    rw [← hdt]
    have h2 := copyExtents_get xs 0 g f hf j hj (by omega)
    simpa using h2

theorem marshalDims_buildDims (xs : List Int) (g : Fin 8 → Int) (dt : Dims)
    (h : buildDims xs g = some dt) : marshalDims dt = xs := by
  obtain ⟨hnb, hd⟩ := buildDims_spec xs g dt h
  have hlen : xs.length ≤ 8 := by
    have := (buildDims_isSome xs g).mp (by rw [h]; rfl)
    exact this
  unfold marshalDims
  rw [hnb, Int.toNat_natCast]
  apply List.ext_getElem
  · simp
  · intro i h1 h2
    have hi8 : i < 8 := by omega
    simp only [List.getElem_map, List.getElem_range, dif_pos hi8]
    rw [hd i h2 hi8]
    simp

theorem marshalDims_faithful (dt : Dims) (h0 : 0 ≤ dt.nbDims) (h8 : dt.nbDims ≤ 8) :
    marshalFaithful dt (marshalDims dt) := by
  constructor
  · unfold marshalDims
    simp [Int.toNat_of_nonneg h0]
  · intro j hj8 hjl
    unfold marshalDims at hjl ⊢
    simp only [List.length_map, List.length_range] at hjl
    rw [List.getD_eq_getElem _ _ (by simpa using hjl)]
    simp only [List.getElem_map, List.getElem_range, dif_pos hj8]

theorem marshalDims_nonpos (dt : Dims) (h : dt.nbDims ≤ 0) : marshalDims dt = [] := by
  unfold marshalDims
  rw [Int.toNat_eq_zero.mpr h]
  rfl

/-! ### Claim theorems -/

/-- C1: `enqueue_v3(stream)` returns `false` on every context in which
`all_input_dimensions_specified()` returns `false`, and returns `true` only
when every input tensor has a resolved shape. -/
theorem enqueueV3_requires_specified_inputs (ctx : ExecutionContext) (stream : Nat) :
    (ctx.all_input_dimensions_specified = false → ctx.enqueue_v3 stream = false)
    ∧ (ctx.enqueue_v3 stream = true → ctx.all_input_dimensions_specified = true) := by
  unfold ExecutionContext.enqueue_v3 NativeContext.enqueueV3
    ExecutionContext.all_input_dimensions_specified
  constructor
  · intro h
    rw [h]
    simp
  · intro h
    simp only [Bool.and_eq_true] at h
    exact h.1.1

theorem enqueueV3_requires_specified_inputs_witness :
    ec0.all_input_dimensions_specified = false ∧ ec0.enqueue_v3 0 = false :=
  ⟨rfl, (enqueueV3_requires_specified_inputs ec0 0).1 rfl⟩

/-- C2: a dimension sequence accepted by `set_input_shape(name, dims)`
(the call returned `true`) is read back verbatim — same length, same
elements in order — by `get_tensor_shape(name)` on the resulting context
with all inputs specified. -/
theorem set_input_shape_roundtrip (ctx ctx' : ExecutionContext) (name : String)
    (dims : List Int) (g : Fin 8 → Int)
    (hall : ctx'.all_input_dimensions_specified = true)
    (h : ctx.set_input_shape name dims g = some (true, ctx')) :
    ctx'.get_tensor_shape name = dims := by
  unfold ExecutionContext.set_input_shape at h
  obtain ⟨dt, hdt, heq⟩ := Option.map_eq_some'.mp h
  rw [Prod.mk.injEq] at heq
  obtain ⟨h1, h2⟩ := heq
  unfold NativeContext.setInputShape at h1 h2
  by_cases hacc : ctx.native.acceptsShape name dt = true
  · rw [if_pos hacc] at h2
    rw [← h2]
    unfold ExecutionContext.get_tensor_shape NativeContext.getTensorShape
    simp only [Function.update_same, Option.getD_some]
    exact marshalDims_buildDims dims g dt hdt
  · rw [if_neg hacc] at h1
    exact absurd h1 (by simp)

theorem set_input_shape_roundtrip_witness :
    ec1.all_input_dimensions_specified = true
    ∧ ec0.set_input_shape "input" [2, 3] zeroSlots = some (true, ec1)
    ∧ ec1.get_tensor_shape "input" = [2, 3] :=
  ⟨by decide, rfl, set_input_shape_roundtrip ec0 ec1 "input" [2, 3] zeroSlots (by decide) rfl⟩

/-- C3: the three object factories return an absent result exactly when the
corresponding native constructor returns null, and otherwise wrap exactly
the native object the constructor returned; no other failure exists. -/
theorem factories_absent_iff_native_null :
    (∀ nr : Option NativeRuntime, (create_runtime nr).isNone ↔ nr.isNone)
    ∧ (∀ r : NativeRuntime, create_runtime (some r) = some ⟨r⟩)
    ∧ (∀ e : CudaEngine,
        e.create_execution_context.isNone ↔ e.native.createContextResult.isNone)
    ∧ (∀ (e : CudaEngine) (c : NativeContext), e.native.createContextResult = some c →
        e.create_execution_context = some ⟨c⟩)
    ∧ (∀ e : CudaEngine,
        e.create_execution_context_without_device_memory.isNone
          ↔ e.native.createContextNoMemResult.isNone)
    ∧ (∀ (e : CudaEngine) (c : NativeContext), e.native.createContextNoMemResult = some c →
        e.create_execution_context_without_device_memory = some ⟨c⟩) := by
  refine ⟨?_, ?_, ?_, ?_, ?_, ?_⟩
  · intro nr
    cases nr <;> simp [create_runtime]
  · intro r
    rfl
  · intro e
    cases h : e.native.createContextResult <;>
      simp [CudaEngine.create_execution_context, h]
  · intro e c h
    simp [CudaEngine.create_execution_context, h]
  · intro e
    cases h : e.native.createContextNoMemResult <;>
      simp [CudaEngine.create_execution_context_without_device_memory, h]
  · intro e c h
    simp [CudaEngine.create_execution_context_without_device_memory, h]

theorem factories_absent_iff_native_null_witness :
    create_runtime (some nr0) = some ⟨nr0⟩
    ∧ (create_runtime none).isNone
    ∧ eng0.create_execution_context = some ⟨nc0⟩
    ∧ eng0.create_execution_context_without_device_memory.isNone
    ∧ eng2.create_execution_context_without_device_memory = some ⟨nc2⟩ :=
  ⟨factories_absent_iff_native_null.2.1 nr0,
   (factories_absent_iff_native_null.1 none).mpr rfl,
   factories_absent_iff_native_null.2.2.2.1 eng0 nc0 rfl,
   (factories_absent_iff_native_null.2.2.2.2.1 eng0).mpr rfl,
   factories_absent_iff_native_null.2.2.2.2.2 eng2 nc2 rfl⟩

/-- C4: `Runtime::deserialize` passes the byte buffer to the native
deserializer unmodified and uninspected — the result is exactly the native
result with the successful engine wrapped — and is absent exactly when the
native deserializer returns null. -/
theorem deserialize_delegates_unmodified (rt : Runtime) (data : List Nat) :
    rt.deserialize data
        = Option.map (fun e => (⟨e⟩ : CudaEngine)) (rt.native.deserializeCudaEngine data)
    ∧ ((rt.deserialize data).isNone ↔ (rt.native.deserializeCudaEngine data).isNone) := by
  cases h : rt.native.deserializeCudaEngine data <;> simp [Runtime.deserialize, h]

/-- C5: `set_input_shape` copies all `n` incoming extents into the 8-slot
native `Dims` with no length check: the copy stays in bounds (the call has a
defined result at all) exactly when `n ≤ 8`, and in that case the declared
rank `nbDims` is set to exactly `n` and each slot `j < n` holds the `j`-th
extent.  No error branch for `n > 8` exists: for such slices there is no
defined result whatsoever, rather than a `false` return. -/
theorem set_input_shape_unchecked_copy (ctx : ExecutionContext) (name : String)
    (xs : List Int) (g : Fin 8 → Int) :
    ((ctx.set_input_shape name xs g).isSome ↔ xs.length ≤ 8)
    ∧ (∀ dt : Dims, buildDims xs g = some dt →
        dt.nbDims = (xs.length : Int)
          ∧ ∀ (j : Nat) (hj : j < xs.length) (h8 : j < 8), dt.d ⟨j, h8⟩ = xs.get ⟨j, hj⟩) := by
  constructor
  · unfold ExecutionContext.set_input_shape
    rw [Option.isSome_map']
    exact buildDims_isSome xs g
  · intro dt hdt
    exact buildDims_spec xs g dt hdt

theorem set_input_shape_unchecked_copy_witness :
    (ec0.set_input_shape "input" [1, 2] zeroSlots).isSome
    ∧ ¬ (ec0.set_input_shape "input" [1, 2, 3, 4, 5, 6, 7, 8, 9] zeroSlots).isSome :=
  ⟨(set_input_shape_unchecked_copy ec0 "input" [1, 2] zeroSlots).1.mpr (by decide),
   fun h => absurd
     ((set_input_shape_unchecked_copy ec0 "input" [1, 2, 3, 4, 5, 6, 7, 8, 9] zeroSlots).1.mp h)
     (by decide)⟩

/-- C6: `set_level` maps each in-range severity to the corresponding spdlog
filter level, is a no-op leaving the filter unchanged on every out-of-range
severity, and consequently after `set_level(WARNING)` a VERBOSE-severity
message produces no sink output while an ERROR-severity message does. -/
theorem set_level_severity_filter (st : SpdState) :
    (Logger.set_level 0 st).level = spdCritical
    ∧ (Logger.set_level 1 st).level = spdErr
    ∧ (Logger.set_level 2 st).level = spdWarn
    ∧ (Logger.set_level 3 st).level = spdInfo
    ∧ (Logger.set_level 4 st).level = spdDebug
    ∧ (∀ sev : Int, sev < 0 ∨ 4 < sev → Logger.set_level sev st = st)
    ∧ (∀ msg : String,
        Logger.log (Logger.set_level 2 st) 4 msg = []
          ∧ Logger.log (Logger.set_level 2 st) 1 msg = [(spdErr, msg)]) := by
  refine ⟨rfl, rfl, rfl, rfl, rfl, ?_, ?_⟩
  · intro sev h
    unfold Logger.set_level
    rw [if_neg (by omega : ¬sev = 0), if_neg (by omega : ¬sev = 1),
      if_neg (by omega : ¬sev = 2), if_neg (by omega : ¬sev = 3),
      if_neg (by omega : ¬sev = 4)]
  · intro msg
    exact ⟨rfl, rfl⟩

theorem set_level_severity_filter_witness :
    Logger.set_level 7 ⟨2⟩ = (⟨2⟩ : SpdState)
    ∧ Logger.log (Logger.set_level 2 ⟨2⟩) 4 "verbose msg" = []
    ∧ Logger.log (Logger.set_level 2 ⟨2⟩) 1 "error msg" = [(spdErr, "error msg")] :=
  ⟨(set_level_severity_filter ⟨2⟩).2.2.2.2.2.1 7 (by omega),
   ((set_level_severity_filter ⟨2⟩).2.2.2.2.2.2 "verbose msg").1,
   ((set_level_severity_filter ⟨2⟩).2.2.2.2.2.2 "error msg").2⟩

/-- C7: `Logger::log` routes every message to the backend level matching its
severity — internal-error to critical, error to error, warning to warn, info
to info, verbose to debug — and every event reaching the sink carries the
message text unchanged at exactly that level. -/
theorem log_routes_by_severity (st : SpdState) (sev : Int) (msg : String) :
    (sev = 0 → Logger.log st sev msg = st.emit spdCritical msg)
    ∧ (sev = 1 → Logger.log st sev msg = st.emit spdErr msg)
    ∧ (sev = 2 → Logger.log st sev msg = st.emit spdWarn msg)
    ∧ (sev = 3 → Logger.log st sev msg = st.emit spdInfo msg)
    ∧ (sev = 4 → Logger.log st sev msg = st.emit spdDebug msg)
    ∧ (∀ p ∈ Logger.log st sev msg, p.1 = severityToSpd sev ∧ p.2 = msg) := by
  refine ⟨?_, ?_, ?_, ?_, ?_, ?_⟩
  · intro h; subst h; rfl
  · intro h; subst h; rfl
  · intro h; subst h; rfl
  · intro h; subst h; rfl
  · intro h; subst h; rfl
  · intro p hp
    unfold Logger.log SpdState.emit at hp
    by_cases hl : st.level ≤ severityToSpd sev
    · rw [if_pos hl] at hp
      rw [List.mem_singleton] at hp
      subst hp
      exact ⟨rfl, rfl⟩
    · rw [if_neg hl] at hp
      exact absurd hp (by simp)

theorem log_routes_by_severity_witness :
    Logger.log ⟨0⟩ 0 "boom" = SpdState.emit ⟨0⟩ spdCritical "boom"
    ∧ Logger.log ⟨0⟩ 4 "chatty" = SpdState.emit ⟨0⟩ spdDebug "chatty" :=
  ⟨(log_routes_by_severity ⟨0⟩ 0 "boom").1 rfl,
   (log_routes_by_severity ⟨0⟩ 4 "chatty").2.2.2.2.1 rfl⟩

/-- C8: the three dimension/stride getters return owned ordered sequences
whose length equals the rank `nbDims` reported by the native layer and whose
`j`-th element equals the native `j`-th extent, order-preserving, for every
native report satisfying the native rank invariant `0 ≤ nbDims ≤ 8`. -/
theorem getters_marshal_native_extents (e : CudaEngine) (ctx : ExecutionContext)
    (name : String)
    (he0 : 0 ≤ (e.native.tensorShape name).nbDims)
    (he8 : (e.native.tensorShape name).nbDims ≤ 8)
    (hc0 : 0 ≤ (ctx.native.getTensorShape name).nbDims)
    (hc8 : (ctx.native.getTensorShape name).nbDims ≤ 8)
    (hs0 : 0 ≤ (ctx.native.strideTable name).nbDims)
    (hs8 : (ctx.native.strideTable name).nbDims ≤ 8) :
    marshalFaithful (e.native.tensorShape name) (e.get_tensor_shape name)
    ∧ marshalFaithful (ctx.native.getTensorShape name) (ctx.get_tensor_shape name)
    ∧ marshalFaithful (ctx.native.strideTable name) (ctx.get_tensor_strides name) :=
  ⟨marshalDims_faithful _ he0 he8, marshalDims_faithful _ hc0 hc8,
   marshalDims_faithful _ hs0 hs8⟩

theorem getters_marshal_native_extents_witness :
    marshalFaithful (eng0.native.tensorShape "t") (eng0.get_tensor_shape "t")
    ∧ marshalFaithful (ec0.native.getTensorShape "t") (ec0.get_tensor_shape "t")
    ∧ marshalFaithful (ec0.native.strideTable "t") (ec0.get_tensor_strides "t") :=
  getters_marshal_native_extents eng0 ec0 "t" (by decide) (by decide) (by decide)
    (by decide) (by decide) (by decide)

/-- C9: setting a tensor address on one execution context leaves every other
context's address table observably unchanged: `get_tensor_address` on a
distinct context returns the same value before and after the call. -/
theorem set_tensor_address_frame (w : Nat → ExecutionContext) (i j : Nat)
    (name other : String) (addr : Nat) (hij : i ≠ j) :
    (setTensorAddressAt w i name addr j).get_tensor_address other
      = (w j).get_tensor_address other := by
  unfold setTensorAddressAt
  rw [Function.update_noteq (Ne.symm hij)]

theorem set_tensor_address_frame_witness :
    (setTensorAddressAt (fun _ => ec0) 0 "input" 42 1).get_tensor_address "input"
      = ((fun _ => ec0) 1).get_tensor_address "input" :=
  set_tensor_address_frame (fun _ => ec0) 0 1 "input" "input" 42 (by decide)

/-- C10: whenever the native layer reports a negative rank (its error
sentinel), all three getters return the empty sequence — exactly what a
genuine rank-0 report also yields, so the two are indistinguishable at the
public interface; the getters produce no error value. -/
theorem negative_rank_empty_sequences (e : CudaEngine) (ctx : ExecutionContext)
    (name : String)
    (he : (e.native.tensorShape name).nbDims < 0)
    (hc : (ctx.native.getTensorShape name).nbDims < 0)
    (hs : (ctx.native.strideTable name).nbDims < 0) :
    e.get_tensor_shape name = []
    ∧ ctx.get_tensor_shape name = []
    ∧ ctx.get_tensor_strides name = []
    ∧ ∀ dt : Dims, dt.nbDims = 0 → marshalDims dt = [] :=
  ⟨marshalDims_nonpos _ (le_of_lt he), marshalDims_nonpos _ (le_of_lt hc),
   marshalDims_nonpos _ (le_of_lt hs), fun dt h => marshalDims_nonpos dt (le_of_eq h)⟩

theorem negative_rank_empty_sequences_witness :
    eng2.get_tensor_shape "t" = []
    ∧ ec2.get_tensor_shape "t" = []
    ∧ ec2.get_tensor_strides "t" = [] :=
  ⟨(negative_rank_empty_sequences eng2 ec2 "t" (by decide) (by decide) (by decide)).1,
   (negative_rank_empty_sequences eng2 ec2 "t" (by decide) (by decide) (by decide)).2.1,
   (negative_rank_empty_sequences eng2 ec2 "t" (by decide) (by decide) (by decide)).2.2.1⟩

end TrtRs
